import Mathlib

/-!
Verification of the severus-labs/relay-server core (src/main.go) against its
natural-language specification.

Time is modelled in seconds as rationals. The SQLite `shares` table is
modelled as a list of rows keyed by `code`; `INSERT OR REPLACE` removes any
row with the same code and prepends the new one, the `PRIMARY KEY` on `code`
being what makes at most one row per code possible.
-/

namespace Relay

/-- One row of the `shares` table (`code TEXT PRIMARY KEY, data TEXT,
expires_at DATETIME`); `created_at` is informational only and carried by no
claim, so it is omitted. Times are seconds as rationals. -/
structure Row where
  code : String
  data : String
  expiresAt : ℚ
deriving DecidableEq, Repr

/-- The `shares` table. -/
abbrev Store := List Row

/-- The statement `INSERT OR REPLACE INTO shares (code, data, expires_at)
VALUES (?, ?, ?)`
(main.go lines 154-157): any existing row with the same code is replaced. -/
def putRow (s : Store) (c d : String) (e : ℚ) : Store :=
  { code := c, data := d, expiresAt := e } :: s.filter (fun q => q.code != c)

/-- Point lookup by code with no expiry filter, as used by
`SELECT EXISTS(SELECT 1 FROM shares WHERE code = ?)` (main.go line 125). -/
def findRow (s : Store) (c : String) : Option Row :=
  s.find? (fun q => q.code == c)

/-- Existence test of `checkCodeHandler` (main.go lines 124-129): true iff a
row with the code is present, regardless of expiry. -/
def existsCode (s : Store) (c : String) : Bool :=
  (findRow s c).isSome

/-- Outcome of the time-gated read in `receiveHandler`: a found row, the
`sql.ErrNoRows` case surfaced as 404, or any other database error surfaced
as 500 (main.go lines 180-187). -/
inductive GetResult where
  | found (d : String) (e : ℚ)
  | notFound
  | storageError
deriving DecidableEq, Repr

/-- The query `SELECT code, data, expires_at FROM shares WHERE code = ? AND
expires_at > dbNow` of main.go line 176, where dbNow stands for the SQLite
expression datetime(now): the read succeeds only if
the row exists and its expiry is strictly in the future of the database
clock `dbNow`. -/
def getShare (s : Store) (c : String) (dbNow : ℚ) : GetResult :=
  match s.find? (fun q => q.code == c && decide (dbNow < q.expiresAt)) with
  | some r => .found r.data r.expiresAt
  | none => .notFound

/-- One sweep of `cleanupExpired` (main.go line 75):
`DELETE FROM shares WHERE expires_at < dbNow` with dbNow again the database
clock — note the strict
comparison — returning the surviving table and `RowsAffected`. -/
def purgeExpired (s : Store) (dbNow : ℚ) : Store × ℕ :=
  let kept := s.filter (fun q => !(decide (q.expiresAt < dbNow)))
  (kept, s.length - kept.length)

/-- The decoded JSON body of a `POST /share` request (main.go lines 25-29);
`expiresMinutes` is the `expires_minutes` field. -/
structure ShareRequest where
  code : String
  data : String
  expiresMinutes : ℤ
deriving DecidableEq, Repr

/-- Response of `shareHandler` (main.go lines 145-167): 400 on empty code or
data, otherwise 201 with the computed expiry echoed back. -/
inductive ShareResult where
  | badRequest
  | created (expiresAt : ℚ)
deriving DecidableEq, Repr

/-- The body of `shareHandler` (main.go lines 138-168): after validation it sets
`var expiresMinutes = 10` (line 150) — the decoded `req.ExpiresMinutes` is
never read — computes `expiresAt = time.Now().Add(expiresMinutes *
time.Minute)` from the process clock `procNow`, and does the
insert-or-replace. -/
def shareHandler (s : Store) (req : ShareRequest) (procNow : ℚ) :
    Store × ShareResult :=
  if req.code = "" ∨ req.data = "" then (s, .badRequest)
  else
    let expiresMinutes : ℤ := 10
    let expiresAt : ℚ := procNow + (expiresMinutes : ℚ) * 60
    (putRow s req.code req.data expiresAt, .created expiresAt)

/-! The token-bucket limiter of golang.org/x/time/rate as the spec describes
it (§4.1): a token count refilled continuously at `limit` tokens per second,
capped at `burst`; `allow` consumes a token when one is available and
otherwise leaves the state untouched. `main.go` line 100 constructs it via
`rate.NewLimiter(rate.Every(time.Minute), 10)`. -/

/-- Token-bucket state: refill rate in tokens per second, burst capacity,
current tokens, and the time of the last state update (seconds). -/
structure Limiter where
  limit : ℚ
  burst : ℕ
  tokens : ℚ
  last : ℚ
deriving DecidableEq, Repr

/-- Tokens available at time `t`: continuous refill since `last`, capped at
`burst`. -/
def Limiter.advance (l : Limiter) (t : ℚ) : ℚ :=
  min (l.burst : ℚ) (l.tokens + (t - l.last) * l.limit)

/-- Calling `Allow()` at time `t`: admit and consume one token when at least one has
accrued; on refusal the bucket state is unchanged. -/
def Limiter.allow (l : Limiter) (t : ℚ) : Bool × Limiter :=
  let tok := l.advance t
  if 1 ≤ tok then (true, { l with tokens := tok - 1, last := t })
  else (false, l)

/-- The conversion `rate.Every(d)`: the rate of one event per `d` seconds. -/
def rateEvery (d : ℚ) : ℚ := 1 / d

/-- A limiter fresh at time `t`, initialized to full capacity. -/
def newLimiter (lim : ℚ) (b : ℕ) (t : ℚ) : Limiter :=
  { limit := lim, burst := b, tokens := (b : ℚ), last := t }

/-- The limiter `main.go` line 100 actually builds:
`rate.NewLimiter(rate.Every(time.Minute), 10)`, i.e. a refill rate of one
token per 60 seconds with burst 10. -/
def codeLimiter (t : ℚ) : Limiter := newLimiter (rateEvery 60) 10 t

/-- Modelled from the spec: the configuration the spec (and the comment on
line 100) claims — refill rate 10 tokens per minute, burst 10. -/
def specLimiter (t : ℚ) : Limiter := newLimiter (10 / 60) 10 t

/-- Run `allow` at each time in `ts` in order, collecting the decisions. -/
def allowRun (l : Limiter) : List ℚ → List Bool × Limiter
  | [] => ([], l)
  | t :: ts =>
      let (b, l1) := l.allow t
      let (bs, l2) := allowRun l1 ts
      (b :: bs, l2)

/-! The limiter registry (`getRateLimiter`, main.go lines 93-105) as a
two-thread interleaving model. Each limiter is named by the counter value at
its creation, so `nextId` counts how many limiters were ever created. A
thread runs two atomic sections exactly as the code locks them: the
`RLock`-ed map read, then — only on a miss — the `Lock`-ed create-and-insert,
which does NOT look the key up again before storing. -/

/-- Program counter of one `getRateLimiter` call: before the read-locked
lookup, after a miss (about to create under the write lock), or returned. -/
inductive PC where
  | start
  | locked
  | done
deriving DecidableEq, Repr

/-- One in-flight `getRateLimiter` call and, once done, the limiter id it
returns. -/
structure Thread where
  pc : PC
  res : Option ℕ
deriving DecidableEq, Repr

/-- The global registry: the `rateLimiters` map (ip to limiter id) and the
count of limiters created so far. -/
structure Reg where
  table : List (String × ℕ)
  nextId : ℕ
deriving DecidableEq, Repr

/-- Map lookup, `limiter, exists := rateLimiters[ip]`. -/
def lookupId (tbl : List (String × ℕ)) (ip : String) : Option ℕ :=
  (tbl.find? (fun p => p.1 == ip)).map Prod.snd

/-- Map store, `rateLimiters[ip] = limiter`: overwrites any entry under
`ip`. -/
def mapInsert (tbl : List (String × ℕ)) (ip : String) (v : ℕ) :
    List (String × ℕ) :=
  (ip, v) :: tbl.filter (fun p => p.1 != ip)

/-- One atomic section of `getRateLimiter` for identity `ip`: at `start`,
the read-locked lookup (hit returns the found id, miss proceeds); at
`locked`, the write-locked unconditional create-and-insert, with no
re-check of the map. -/
def threadStep (reg : Reg) (th : Thread) (ip : String) : Reg × Thread :=
  match th.pc with
  | .start =>
      match lookupId reg.table ip with
      | some id => (reg, { pc := .done, res := some id })
      | none => (reg, { pc := .locked, res := none })
  | .locked =>
      let id := reg.nextId
      ({ table := mapInsert reg.table ip id, nextId := id + 1 },
       { pc := .done, res := some id })
  | .done => (reg, th)

/-- Run two `getRateLimiter` calls for the same `ip` under a schedule:
`true` steps thread A, `false` steps thread B. -/
def runSched (ip : String) : List Bool → Reg → Thread → Thread →
    Reg × Thread × Thread
  | [], reg, a, b => (reg, a, b)
  | c :: rest, reg, a, b =>
      if c then
        let (reg1, a1) := threadStep reg a ip
        runSched ip rest reg1 a1 b
      else
        let (reg1, b1) := threadStep reg b ip
        runSched ip rest reg1 a b1

/-- A thread that has not started. -/
def freshThread : Thread := { pc := .start, res := none }

/-- The empty registry. -/
def emptyReg : Reg := { table := [], nextId := 0 }

/-! The router (main.go lines 207-212): `r.Use(rateLimitMiddleware)` wraps
every registered route, `/health` included, in the admission gate. -/

/-- The four registered routes. -/
inductive Route where
  | health
  | check (code : String)
  | share (req : ShareRequest)
  | receive (code : String)
deriving DecidableEq, Repr

/-- Dispatch to the matched handler, returning the updated store and the
HTTP status each handler writes (main.go lines 120-198). -/
def handleRoute (s : Store) (procNow dbNow : ℚ) : Route → Store × ℕ
  | .health => (s, 200)
  | .check c => (s, if existsCode s c then 409 else 404)
  | .share req =>
      let (s1, res) := shareHandler s req procNow
      (s1, match res with | .badRequest => 400 | .created _ => 201)
  | .receive c =>
      (s, match getShare s c dbNow with
          | .found _ _ => 200
          | .notFound => 404
          | .storageError => 500)

/-- Serve one request through `rateLimitMiddleware` (main.go lines 107-118):
the limiter for the client runs first; on refusal the response is 429 and
the handler never runs (the final Bool records whether it ran). -/
def serve (l : Limiter) (s : Store) (t procNow dbNow : ℚ) (r : Route) :
    Limiter × Store × ℕ × Bool :=
  let res := l.allow t
  if res.1 then
    let (s1, status) := handleRoute s procNow dbNow r
    (res.2, s1, status, true)
  else (res.2, s, 429, false)

/-! Operation sequences over the store, for the per-code uniqueness
invariant: reads leave the table unchanged, `put` and the sweep mutate it
only through `putRow` and `purgeExpired`. -/

/-- One store operation. -/
inductive Op where
  | put (c d : String) (e : ℚ)
  | getOp (c : String) (dbNow : ℚ)
  | existsOp (c : String)
  | purge (dbNow : ℚ)
deriving DecidableEq, Repr

/-- Effect of one operation on the table (reads have none). -/
def applyOp (s : Store) : Op → Store
  | .put c d e => putRow s c d e
  | .getOp _ _ => s
  | .existsOp _ => s
  | .purge dbNow => (purgeExpired s dbNow).1

/-- The table after a sequence of operations from the freshly created empty
table. -/
def runOps (ops : List Op) : Store := ops.foldl applyOp []

/-! Helper lemmas about the store. -/

theorem mem_filter_code_ne (s : Store) (c : String) :
    ∀ q ∈ s.filter (fun q => q.code != c), q.code ≠ c := by
  intro q hq
  have h := List.of_mem_filter hq
  simpa [bne_iff_ne] using h

theorem find_gate_none {l : Store} {c : String} {dbNow : ℚ}
    (h : ∀ q ∈ l, q.code ≠ c) :
    l.find? (fun q => q.code == c && decide (dbNow < q.expiresAt)) = none := by
  induction l with
  | nil => rfl
  | cons x xs ih =>
      have hx : (x.code == c) = false := by
        simpa [beq_iff_eq] using h x (List.mem_cons_self x xs)
      rw [List.find?_cons]
      simp only [hx, Bool.false_and]
      exact ih (fun q hq => h q (List.mem_cons_of_mem x hq))

theorem getShare_none {l : Store} {c : String} {dbNow : ℚ}
    (h : ∀ q ∈ l, q.code ≠ c) : getShare l c dbNow = .notFound := by
  unfold getShare
  rw [find_gate_none h]

theorem getShare_putRow (s : Store) (c d : String) (e dbNow : ℚ) :
    getShare (putRow s c d e) c dbNow =
      if dbNow < e then GetResult.found d e else GetResult.notFound := by
  unfold getShare putRow
  by_cases hlt : dbNow < e
  · rw [if_pos hlt]
    rw [List.find?_cons_of_pos _ (by simp [hlt])]
  · rw [if_neg hlt]
    rw [List.find?_cons_of_neg _ (by simp [hlt]),
      find_gate_none (mem_filter_code_ne s c)]

theorem findRow_putRow (s : Store) (c d : String) (e : ℚ) :
    findRow (putRow s c d e) c =
      some { code := c, data := d, expiresAt := e } := by
  unfold findRow putRow
  rw [List.find?_cons_of_pos _ (by simp)]

theorem existsCode_putRow (s : Store) (c d : String) (e : ℚ) :
    existsCode (putRow s c d e) c = true := by
  unfold existsCode
  rw [findRow_putRow]
  rfl

theorem allow_fail_state (l : Limiter) (t : ℚ) (h : (l.allow t).1 = false) :
    (l.allow t).2 = l := by
  simp only [Limiter.allow] at h ⊢
  by_cases hc : (1 : ℚ) ≤ l.advance t
  · rw [if_pos hc] at h
    exact absurd h (by simp)
  · rw [if_neg hc]

theorem length_filter_add_not {α : Type} (l : List α) (p : α → Bool) :
    (l.filter p).length + (l.filter (fun a => !(p a))).length = l.length := by
  induction l with
  | nil => rfl
  | cons x xs ih =>
      cases hx : p x <;> simp [List.filter_cons, hx] <;> omega

theorem nodup_codes_putRow {s : Store} (c d : String) (e : ℚ)
    (h : (s.map Row.code).Nodup) :
    ((putRow s c d e).map Row.code).Nodup := by
  unfold putRow
  rw [List.map_cons]
  refine List.nodup_cons.mpr ⟨?_, ?_⟩
  · intro hc
    rw [List.mem_map] at hc
    obtain ⟨q, hq, hqc⟩ := hc
    exact mem_filter_code_ne s c q hq hqc
  · exact ((s.filter_sublist).map Row.code).nodup h

theorem nodup_codes_purge {s : Store} (dbNow : ℚ)
    (h : (s.map Row.code).Nodup) :
    (((purgeExpired s dbNow).1).map Row.code).Nodup := by
  unfold purgeExpired
  exact ((s.filter_sublist).map Row.code).nodup h

theorem nodup_codes_runOps_aux (ops : List Op) :
    ∀ s : Store, (s.map Row.code).Nodup →
      ((ops.foldl applyOp s).map Row.code).Nodup := by
  induction ops with
  | nil =>
      intro s h
      simpa using h
  | cons op rest ih =>
      intro s h
      rw [List.foldl_cons]
      refine ih _ ?_
      cases op with
      | put c d e => exact nodup_codes_putRow c d e h
      | getOp c n => exact h
      | existsOp c => exact h
      | purge n => exact nodup_codes_purge n h

theorem filter_code_length_le_one {s : Store} (c : String)
    (h : (s.map Row.code).Nodup) :
    (s.filter (fun r => r.code == c)).length ≤ 1 := by
  induction s with
  | nil => simp
  | cons x xs ih =>
      rw [List.map_cons, List.nodup_cons] at h
      rw [List.filter_cons]
      by_cases hx : (x.code == c) = true
      · have hxc : x.code = c := by simpa [beq_iff_eq] using hx
        have hxs : xs.filter (fun r => r.code == c) = [] := by
          rw [List.filter_eq_nil_iff]
          intro q hq hqc
          refine h.1 ?_
          rw [List.mem_map]
          refine ⟨q, hq, ?_⟩
          rw [show q.code = c by simpa [beq_iff_eq] using hqc, hxc]
        simp [hx, hxs]
      · have hx' : (x.code == c) = false := by
          simpa using hx
        simp only [hx', Bool.false_eq_true, if_false]
        exact ih h.2

/-! The claims. -/

/-- C1: the claim says `put` computes `expiresAt = now + ttl` from the
requested ttl, with 10 minutes used only when the caller does not specify
one. The code (main.go line 150) hardcodes 10 minutes and never reads the
decoded `expires_minutes` field: a request asking for 5 minutes and one
asking for 30 minutes both get `now + 600` seconds, and `now + 600` is not
`now + 5 * 60`. -/
theorem C1_ttl_ignored_eval :
    (shareHandler [] ⟨"ABC1", "blob", 5⟩ 0).2 = .created 600 ∧
    (shareHandler [] ⟨"ABC1", "blob", 30⟩ 0).2 = .created 600 ∧
    ((0 : ℚ) + 5 * 60 ≠ 600) := by
  have h : ¬ (("ABC1" : String) = "" ∨ ("blob" : String) = "") := by decide
  refine ⟨?_, ?_, by norm_num⟩ <;> (simp only [shareHandler, if_neg h]; norm_num)

/-- C2: the claim says the bucket is configured with refill rate 10 tokens
per minute. The code (main.go line 100) passes `rate.Every(time.Minute)`,
which is 1 token per minute; with the claimed configuration (`specLimiter`,
the comment on line 100) a fresh identity exhausted at t = 0 is admitted
again at t = 6 s, while the built limiter still refuses it. Both
configurations agree on the burst part: 10 admissions at t = 0 and a
refusal on the 11th. -/
theorem C2_refill_rate_eval :
    (codeLimiter 0).limit = 1 / 60 ∧
    (specLimiter 0).limit = 10 / 60 ∧
    ((1 : ℚ) / 60 ≠ 10 / 60) ∧
    (allowRun (codeLimiter 0) [0, 0, 0, 0, 0, 0, 0, 0, 0, 0, 0, 6]).1 =
      [true, true, true, true, true, true, true, true, true, true,
       false, false] ∧
    (allowRun (specLimiter 0) [0, 0, 0, 0, 0, 0, 0, 0, 0, 0, 0, 6]).1 =
      [true, true, true, true, true, true, true, true, true, true,
       false, true] := by
  refine ⟨rfl, rfl, by norm_num, ?_, ?_⟩ <;>
    norm_num [allowRun, Limiter.allow, Limiter.advance, codeLimiter,
      specLimiter, newLimiter, rateEvery]

/-- C3 counterexample: the claim says a miss re-checks existence under the
exclusive lock, so two concurrent first-sight callers never install two
distinct limiters. In the interleaving read-A, read-B, insert-A, insert-B
for the same unseen identity, both callers miss, both create: two limiters
are created (`nextId = 2`), caller A returns limiter 0, caller B returns
limiter 1, and the map retains only limiter 1 (B replaced A). -/
theorem C3_race_counterexample :
    runSched "1.2.3.4" [true, false, true, false]
        emptyReg freshThread freshThread =
      ({ table := [("1.2.3.4", 1)], nextId := 2 },
       { pc := .done, res := some 0 },
       { pc := .done, res := some 1 }) ∧
    some (0 : ℕ) ≠ some 1 := by
  decide

/-- C3 amended: `getRateLimiter` takes the exclusive lock on a read-path
miss but inserts without re-checking, so sequential calls create at most
one limiter per identity (second caller finds the first one), while a
concurrent first-sight race can create two distinct limiters, the second
insert replacing the first in the map. -/
theorem C3_no_recheck :
    (runSched "1.2.3.4" [true, true, false]
        emptyReg freshThread freshThread =
      ({ table := [("1.2.3.4", 0)], nextId := 1 },
       { pc := .done, res := some 0 },
       { pc := .done, res := some 0 })) ∧
    ((runSched "1.2.3.4" [true, false, true, false]
        emptyReg freshThread freshThread).1.nextId = 2) := by
  decide

/-- C4: once the database clock has reached the stored expiry and the row
is still physically present, the time-gated read reports not-found while
the existence check still reports the code as present. -/
theorem C4_time_gating (s : Store) (c d : String) (e now : ℚ)
    (h : e ≤ now) :
    getShare (putRow s c d e) c now = .notFound ∧
    existsCode (putRow s c d e) c = true := by
  refine ⟨?_, existsCode_putRow s c d e⟩
  rw [getShare_putRow, if_neg (not_lt.mpr h)]

/-- Witness for C4 at a concrete input. -/
theorem C4_time_gating_witness :
    (0 : ℚ) ≤ 0 ∧
    (getShare (putRow [] "ABC1" "blob" 0) "ABC1" 0 = .notFound ∧
     existsCode (putRow [] "ABC1" "blob" 0) "ABC1" = true) :=
  ⟨le_refl 0, C4_time_gating [] "ABC1" "blob" 0 0 (le_refl 0)⟩

/-- C5 counterexample: the claim says a sweep at time `now` removes every
row with `expiresAt ≤ now`, expiry exactly `now` included, and counts it.
The delete (main.go line 75) compares strictly, so the row with expiry 5
survives a sweep at time 5 and the reported count is 0. -/
theorem C5_boundary_counterexample :
    (Row.mk "A" "d" 5).expiresAt ≤ 5 ∧
    (purgeExpired [Row.mk "A" "d" 5] 5).1 = [Row.mk "A" "d" 5] ∧
    (purgeExpired [Row.mk "A" "d" 5] 5).2 = 0 := by
  refine ⟨le_refl 5, ?_, ?_⟩ <;> norm_num [purgeExpired]

/-- C5 amended: after one sweep at time `now`, no row with
`expiresAt < now` remains (a row with expiry exactly `now` is kept), every
row with `now ≤ expiresAt` is kept unchanged — the survivors are exactly
the sublist of such rows — and the returned count equals the number of
rows actually removed. -/
theorem C5_sweep_strict (s : Store) (now : ℚ) :
    (purgeExpired s now).1 =
      s.filter (fun r => decide (now ≤ r.expiresAt)) ∧
    (∀ r ∈ (purgeExpired s now).1, now ≤ r.expiresAt) ∧
    (purgeExpired s now).2 =
      (s.filter (fun r => decide (r.expiresAt < now))).length ∧
    (purgeExpired s now).2 + ((purgeExpired s now).1).length = s.length := by
  have hfun : (fun r : Row => !(decide (r.expiresAt < now))) =
      (fun r : Row => decide (now ≤ r.expiresAt)) := by
    funext r
    rw [← decide_not]
    exact decide_eq_decide.mpr not_lt
  have hpart := length_filter_add_not s (fun r : Row => decide (r.expiresAt < now))
  have hkept : (purgeExpired s now).1 =
      s.filter (fun r => decide (now ≤ r.expiresAt)) := by
    unfold purgeExpired
    rw [hfun]
  have h2 : (purgeExpired s now).2 =
      s.length -
        (s.filter (fun r => !(decide (r.expiresAt < now)))).length := rfl
  have h1len : ((purgeExpired s now).1).length =
      (s.filter (fun r => !(decide (r.expiresAt < now)))).length := rfl
  refine ⟨hkept, ?_, ?_, ?_⟩
  · intro r hr
    rw [hkept] at hr
    have hmem := List.of_mem_filter hr
    exact of_decide_eq_true hmem
  · omega
  · omega

/-- C6: after two strictly sequential puts under the same code, the
time-gated read returns the second payload with the second expiry whenever
it is live and never the first payload; the stored row is exactly the
second one, and put has no conflict outcome — the insert-or-replace always
succeeds by replacing. -/
theorem C6_last_write_wins (s : Store) (c d1 d2 : String)
    (e1 e2 now : ℚ) :
    getShare (putRow (putRow s c d1 e1) c d2 e2) c now =
      (if now < e2 then GetResult.found d2 e2 else GetResult.notFound) ∧
    findRow (putRow (putRow s c d1 e1) c d2 e2) c =
      some { code := c, data := d2, expiresAt := e2 } :=
  ⟨getShare_putRow (putRow s c d1 e1) c d2 e2 now,
   findRow_putRow (putRow s c d1 e1) c d2 e2⟩

/-- C7: starting from the freshly created empty table, after any sequence
of put, get, exists and purge operations at most one row exists under any
given code — the replace-on-insert keyed table keeps the codes
duplicate-free. -/
theorem C7_at_most_one_row (ops : List Op) (c : String) :
    ((runOps ops).filter (fun r => r.code == c)).length ≤ 1 :=
  filter_code_length_le_one c
    (nodup_codes_runOps_aux ops [] (by simp))

/-- C8: a read of a code that was never stored and a read of a code whose
row is present but expired produce the same not-found outcome — the two
negative cases are indistinguishable — and that outcome is distinct from
the storage-error signal. -/
theorem C8_notfound_indistinguishable (s : Store) (c d : String)
    (e now : ℚ) (habs : ∀ r ∈ s, r.code ≠ c) (hexp : e ≤ now) :
    getShare s c now = .notFound ∧
    getShare (putRow s c d e) c now = .notFound ∧
    getShare s c now = getShare (putRow s c d e) c now ∧
    GetResult.notFound ≠ GetResult.storageError := by
  have h1 : getShare s c now = .notFound := getShare_none habs
  have h2 : getShare (putRow s c d e) c now = .notFound := by
    rw [getShare_putRow, if_neg (not_lt.mpr hexp)]
  exact ⟨h1, h2, h1.trans h2.symm, by decide⟩

/-- Witness for C8 at a concrete input. -/
theorem C8_notfound_indistinguishable_witness :
    ((∀ r ∈ ([] : Store), r.code ≠ "XYZ9") ∧ (0 : ℚ) ≤ 0) ∧
    (getShare [] "XYZ9" 0 = .notFound ∧
     getShare (putRow [] "XYZ9" "d" 0) "XYZ9" 0 = .notFound ∧
     getShare [] "XYZ9" 0 = getShare (putRow [] "XYZ9" "d" 0) "XYZ9" 0 ∧
     GetResult.notFound ≠ GetResult.storageError) :=
  ⟨⟨by simp, le_refl 0⟩,
   C8_notfound_indistinguishable [] "XYZ9" "d" 0 0 (by simp) (le_refl 0)⟩

/-- C9: the expiry stored by the share handler is computed from the process
clock (`procNow + 600` seconds, main.go line 152), while the read gate and
the sweep compare that stored value against the database clock `dbNow`
(main.go lines 176 and 75). Consequently a just-stored share is visible
exactly while `dbNow < procNow + 600` and is swept exactly when
`procNow + 600 < dbNow`: its liveness window depends on the two clock
sources agreeing, not on the process clock alone. -/
theorem C9_two_clocks (s : Store) (c d : String) (m : ℤ)
    (procNow dbNow : ℚ) (hc : c ≠ "") (hd : d ≠ "") :
    (shareHandler s ⟨c, d, m⟩ procNow).2 = .created (procNow + 600) ∧
    getShare (shareHandler s ⟨c, d, m⟩ procNow).1 c dbNow =
      (if dbNow < procNow + 600 then GetResult.found d (procNow + 600)
       else GetResult.notFound) ∧
    (purgeExpired (putRow [] c d (procNow + 600)) dbNow).2 =
      (if procNow + 600 < dbNow then 1 else 0) := by
  have hne : ¬ (c = "" ∨ d = "") := not_or.mpr ⟨hc, hd⟩
  have hsh : shareHandler s ⟨c, d, m⟩ procNow =
      (putRow s c d (procNow + 600), .created (procNow + 600)) := by
    simp only [shareHandler, if_neg hne]
    norm_num
  refine ⟨by rw [hsh], ?_, ?_⟩
  · rw [hsh]
    exact getShare_putRow s c d (procNow + 600) dbNow
  · by_cases hlt : procNow + 600 < dbNow
    · simp [purgeExpired, putRow, hlt]
    · simp [purgeExpired, putRow, hlt]

/-- Witness for C9 at a concrete input. -/
theorem C9_two_clocks_witness :
    (("A" : String) ≠ "" ∧ ("d" : String) ≠ "") ∧
    ((shareHandler [] ⟨"A", "d", 0⟩ 0).2 = .created (0 + 600) ∧
     getShare (shareHandler [] ⟨"A", "d", 0⟩ 0).1 "A" 0 =
       (if (0 : ℚ) < 0 + 600 then GetResult.found "d" (0 + 600)
        else GetResult.notFound) ∧
     (purgeExpired (putRow [] "A" "d" (0 + 600)) 0).2 =
       (if (0 : ℚ) + 600 < 0 then 1 else 0)) :=
  ⟨⟨by decide, by decide⟩,
   C9_two_clocks [] "A" "d" 0 0 0 (by decide) (by decide)⟩

/-- C10: every route is registered behind the rate-limit middleware, the
health check included; when the token bucket of the client refuses the
request, the response is 429 and no handler runs — for `/health` just as
for every other route. -/
theorem C10_health_rate_limited (l : Limiter) (s : Store)
    (t procNow dbNow : ℚ) (r : Route) (h : (l.allow t).1 = false) :
    serve l s t procNow dbNow r = (l, s, 429, false) := by
  simp only [serve, h, allow_fail_state l t h, Bool.false_eq_true, if_false]

/-- Witness for C10: a fresh limiter built as on main.go line 100 and
exhausted by ten admissions refuses the next request, and a health-check
request at that point is answered 429 without its handler running. -/
theorem C10_health_rate_limited_witness :
    ((((allowRun (codeLimiter 0)
        [0, 0, 0, 0, 0, 0, 0, 0, 0, 0]).2).allow 0).1 = false) ∧
    serve (allowRun (codeLimiter 0) [0, 0, 0, 0, 0, 0, 0, 0, 0, 0]).2
        [] 0 0 0 .health =
      ((allowRun (codeLimiter 0) [0, 0, 0, 0, 0, 0, 0, 0, 0, 0]).2,
       [], 429, false) := by
  have hfalse : (((allowRun (codeLimiter 0)
      [0, 0, 0, 0, 0, 0, 0, 0, 0, 0]).2).allow 0).1 = false := by
    norm_num [allowRun, Limiter.allow, Limiter.advance, codeLimiter,
      newLimiter, rateEvery]
  exact ⟨hfalse,
    C10_health_rate_limited _ [] 0 0 0 Route.health hfalse⟩

end Relay
